import Mathlib

/-!
Shallow embedding of `circuitbreaker/circuitbreaker.py` (postmates/circuitbreaker).

Modelling choices, each traceable to the source:
* Timestamps (`unix_time_seconds(datetime.utcnow())`) are modelled as rationals `ℚ`
  supplied explicitly as a `now` argument to each operation; within one `call` the
  clock is read once (the source re-reads it, but no claim depends on the clock
  advancing during a single call).
* `self._failure_count` is a `multiprocessing.Value(ctypes.c_int, ...)`: a 32-bit
  signed integer whose assignments wrap silently (ctypes performs no overflow
  checking).  It is modelled as `ℤ` with an explicit 32-bit wrap applied at every
  store, exactly where the source stores `self._failure_count.value += 1`.
* `self._state` holds one of the three string constants from
  `circuitbreaker/states.py` (not shipped under src/, but only the three names
  `STATE_CLOSED`, `STATE_OPEN`, `STATE_HALF_OPEN` are ever used); it is modelled
  as the inductive `State`.
* The stats functions from `circuitbreaker/stats.py` are fire-and-forget side
  effects with no influence on breaker state; no claim mentions them, so they are
  not modelled.
* Exceptions raised by the wrapped operation are an abstract type `ε`; the
  `isinstance` test `except self._expected_exception` is modelled by the breaker's
  `expected : ε → Bool` predicate.  `CircuitBreakerError` (raised by the breaker
  itself, outside the inner `try`) is kept distinct from operation exceptions in
  the `CallResult` type.
* Whether the wrapped operation was actually invoked is exposed as the `invoked`
  flag of `CallOut` (observable in Python via a call counter on the operation).
-/

namespace Circuitbreaker

/-- The three state constants of `circuitbreaker/states.py`. -/
inductive State where
  | CLOSED
  | OPEN
  | HALF_OPEN
deriving DecidableEq, Repr

/-- Largest value of a C 32-bit signed int (`ctypes.c_int`). -/
def INT_MAX : ℤ := 2 ^ 31 - 1

/-- Smallest value of a C 32-bit signed int (`ctypes.c_int`). -/
def INT_MIN : ℤ := -(2 ^ 31)

/-- Wrap an integer into the range of a C 32-bit signed int, the way a store into
a `ctypes.c_int` behaves (ctypes does no overflow checking). -/
def wrap32 (x : ℤ) : ℤ := (x + 2 ^ 31) % 2 ^ 32 - 2 ^ 31

/-- Class default `CircuitBreaker.FAILURE_THRESHOLD`. -/
def FAILURE_THRESHOLD : ℤ := 5

/-- Class default `CircuitBreaker.RECOVERY_TIMEOUT`. -/
def RECOVERY_TIMEOUT : ℚ := 30

/-- The immutable configuration a `CircuitBreaker.__init__` leaves behind:
`_failure_threshold`, `_recovery_timeout`, the `isinstance` test against
`_expected_exception`, and `_name`. -/
structure Config (ε : Type) where
  failure_threshold : ℤ
  recovery_timeout : ℚ
  expected : ε → Bool
  name : String

/-- Python truthiness of an optional integer argument (`None` and `0` are falsy). -/
def pyOrInt (x : Option ℤ) (dflt : ℤ) : ℤ :=
  match x with
  | none => dflt
  | some v => if v = 0 then dflt else v

/-- Python truthiness of an optional numeric argument (`None` and `0` are falsy). -/
def pyOrRat (x : Option ℚ) (dflt : ℚ) : ℚ :=
  match x with
  | none => dflt
  | some v => if v = 0 then dflt else v

/-- The `failure_threshold or self.FAILURE_THRESHOLD` / `recovery_timeout or
self.RECOVERY_TIMEOUT` defaulting performed by `CircuitBreaker.__init__`. -/
def initConfig (ε : Type) (ft : Option ℤ) (rt : Option ℚ) (expected : ε → Bool)
    (name : String) : Config ε :=
  { failure_threshold := pyOrInt ft FAILURE_THRESHOLD
    recovery_timeout := pyOrRat rt RECOVERY_TIMEOUT
    expected := expected
    name := name }

/-- The mutable shared fields of a `CircuitBreaker`: `_failure_count` (a
`ctypes.c_int`), `_state`, and `_opened` (a `ctypes.c_double` timestamp). -/
structure Breaker where
  underscore_failure_count : ℤ
  underscore_state : State
  underscore_opened : ℚ
deriving DecidableEq, Repr

/-- The field values `__init__` stores: count 0, `STATE_CLOSED`, and
`_opened = unix_time_seconds(datetime.utcnow())` at construction time `t0`. -/
def initState (t0 : ℚ) : Breaker :=
  { underscore_failure_count := 0
    underscore_state := State.CLOSED
    underscore_opened := t0 }

/-- Property `failure_count`. -/
def failure_count (b : Breaker) : ℤ := b.underscore_failure_count

/-- Property `open_until = self._opened.value + self._recovery_timeout`. -/
def open_until (cfg : Config ε) (b : Breaker) : ℚ :=
  b.underscore_opened + cfg.recovery_timeout

/-- Property `open_remaining = self.open_until - unix_time_seconds(utcnow())`. -/
def open_remaining (cfg : Config ε) (b : Breaker) (now : ℚ) : ℚ :=
  open_until cfg b - now

/-- Property `state`: `HALF_OPEN` if the stored state is `OPEN` and
`open_remaining <= 0`, otherwise the stored state. -/
def state (cfg : Config ε) (b : Breaker) (now : ℚ) : State :=
  if b.underscore_state = State.OPEN ∧ open_remaining cfg b now ≤ 0 then
    State.HALF_OPEN
  else
    b.underscore_state

/-- Property `closed = self.state == STATE_CLOSED`. -/
def closed (cfg : Config ε) (b : Breaker) (now : ℚ) : Bool :=
  state cfg b now = State.CLOSED

/-- Property `opened = self.state == STATE_OPEN`. -/
def opened (cfg : Config ε) (b : Breaker) (now : ℚ) : Bool :=
  state cfg b now = State.OPEN

/-- What the wrapped operation would do if invoked: return a value or raise. -/
inductive Outcome (α ε : Type) where
  | success (v : α)
  | excRaise (e : ε)
deriving DecidableEq, Repr

/-- Result observed by the caller of `CircuitBreaker.call`: the operation's
return value, the operation's exception re-raised, or a `CircuitBreakerError`. -/
inductive CallResult (α ε : Type) where
  | value (v : α)
  | raised (e : ε)
  | rejected
deriving DecidableEq, Repr

/-- Post-state, caller-visible result, and whether the operation was invoked. -/
structure CallOut (α ε : Type) where
  post : Breaker
  result : CallResult α ε
  invoked : Bool
deriving DecidableEq, Repr

/-- Private method `__call_succeeded`: store `STATE_CLOSED` and reset the failure
count to 0 (the stats call it also makes has no effect on breaker state). -/
def call_succeeded (b : Breaker) : Breaker :=
  { b with underscore_state := State.CLOSED, underscore_failure_count := 0 }

/-- Private method `__call_failed`: increment the `c_int` failure count (with
32-bit wrap); if the new count reaches `_failure_threshold`, store `STATE_OPEN`
and stamp `_opened` with the current time. -/
def call_failed (cfg : Config ε) (b : Breaker) (now : ℚ) : Breaker :=
  let c := wrap32 (b.underscore_failure_count + 1)
  if cfg.failure_threshold ≤ c then
    { underscore_failure_count := c
      underscore_state := State.OPEN
      underscore_opened := now }
  else
    { b with underscore_failure_count := c }

/-- Method `call`: if `self.opened`, raise `CircuitBreakerError` without invoking
the operation; otherwise invoke it, routing an exception matching
`_expected_exception` through `__call_failed` before re-raising it, any other
exception straight through untouched, and a normal return through
`__call_succeeded`. -/
def call (cfg : Config ε) (b : Breaker) (now : ℚ) (f : Outcome α ε) :
    CallOut α ε :=
  if opened cfg b now then
    { post := b, result := CallResult.rejected, invoked := false }
  else
    match f with
    | Outcome.success v =>
        { post := call_succeeded b, result := CallResult.value v, invoked := true }
    | Outcome.excRaise e =>
        if cfg.expected e then
          { post := call_failed cfg b now, result := CallResult.raised e, invoked := true }
        else
          { post := b, result := CallResult.raised e, invoked := true }

/-- Run a sequence of calls, each with its own clock reading and operation
outcome, threading the breaker's shared fields through. -/
def runTrace (cfg : Config ε) (b : Breaker) : List (ℚ × Outcome α ε) → Breaker
  | [] => b
  | (t, f) :: rest => runTrace cfg (call cfg b t f).post rest

/-- Breaker field states reachable from construction by any sequence of calls. -/
inductive Reachable (cfg : Config ε) : Breaker → Prop where
  | init (t0 : ℚ) : Reachable cfg (initState t0)
  | step {b : Breaker} {α : Type} (now : ℚ) (f : Outcome α ε) :
      Reachable cfg b → Reachable cfg (call (α := α) cfg b now f).post

/-- Python 2 `round`: round half away from zero (the repository is Python 2 —
`xrange`, `unicode_literals`).  Every claim-relevant use is away from a tie, so
the Python 3 half-to-even convention would settle the claims identically. -/
def pyRound (q : ℚ) : ℤ := if 0 ≤ q then ⌊q + 1 / 2⌋ else ⌈q - 1 / 2⌉

/-- Decimal digits of the proper fraction `n / d` written to `k` places
(leading zeros included), as they appear after the decimal point. -/
def pyFracDigits (n d k : ℕ) : String :=
  let s := toString (n * 10 ^ k / d)
  String.mk (List.replicate (k - s.length) (Char.ofNat 48)) ++ s

/-- Python `str()` of the `open_until` C double, as the `%s` conversion in
`CircuitBreakerError.__str__` renders it: an integral float prints as the
integer followed by `.0` (`5.0`, `30.0`), a non-integral one as its decimal
form (`8.5`).  Over the rational clock idealization this is the terminating
decimal expansion of the value, which agrees with Python for every value the
idealized clock and the program can share at moderate magnitude (doubles are
dyadic rationals, so their exact expansions terminate); rationals with no
terminating expansion within 32 places have no short double counterpart and
are rendered by a 32-place truncated expansion. -/
def pyFloatStr (q : ℚ) : String :=
  if q.den = 1 then toString q.num ++ ".0"
  else
    let sgn := if q.num < 0 then "-" else ""
    let k := ((List.range 33).find? fun j => 10 ^ j % q.den = 0).getD 32
    sgn ++ toString (q.num.natAbs / q.den) ++ "." ++
      pyFracDigits (q.num.natAbs % q.den) q.den k

/-- The string built by `CircuitBreakerError.__str__`:
`'Circuit "%s" OPEN until %s (%d failures, %d sec remaining)'` applied to the
breaker's name, `open_until`, `failure_count`, and `round(open_remaining)`.
The second `%s` renders the `open_until` float via `str()`; the two `%d`
conversions receive `failure_count` (an int) and `round(open_remaining)` (an
integral float, which `%d` converts to the same integer). -/
def errorMessage (cfg : Config ε) (b : Breaker) (now : ℚ) : String :=
  "Circuit \"" ++ cfg.name ++ "\" OPEN until " ++
    pyFloatStr (open_until cfg b) ++ " (" ++
    toString (failure_count b) ++ " failures, " ++
    toString (pyRound (open_remaining cfg b now)) ++ " sec remaining)"

/-- A registry entry of `CircuitBreakerMonitor.circuit_breakers`: a registered
breaker together with its configuration. -/
structure Entry (ε : Type) where
  cfg : Config ε
  b : Breaker

/-- Classmethod `get_open`: the registered breakers whose `opened` holds at
enumeration time. -/
def get_open (regs : List (Entry ε)) (now : ℚ) : List (Entry ε) :=
  regs.filter fun e => opened e.cfg e.b now

/-- Classmethod `get_closed`: the registered breakers whose `closed` holds at
enumeration time. -/
def get_closed (regs : List (Entry ε)) (now : ℚ) : List (Entry ε) :=
  regs.filter fun e => closed e.cfg e.b now

/-- Classmethod `all_closed`: `len(list(cls.get_open())) == 0`. -/
def all_closed (regs : List (Entry ε)) (now : ℚ) : Bool :=
  (get_open regs now).length = 0

/-- Number of trace entries whose operation outcome is an exception matching
`_expected_exception` (an upper bound on the failure transitions of a run). -/
def countExpected (cfg : Config ε) : List (ℚ × Outcome α ε) → ℕ
  | [] => 0
  | (_, Outcome.success _) :: rest => countExpected cfg rest
  | (_, Outcome.excRaise e) :: rest =>
      (if cfg.expected e then 1 else 0) + countExpected cfg rest

/-- A run of `n` calls, all made at clock reading `t`, whose operation raises
the exception `e` every time. -/
def constTrace (t : ℚ) (e : ε) (n : ℕ) : List (ℚ × Outcome α ε) :=
  List.replicate n (t, Outcome.excRaise e)

/-- A run of `n` failing calls spaced 30 seconds apart, matching a breaker with
`recovery_timeout = 30` so that each call after the first lands exactly at the
end of the previous recovery window. -/
def spacedTrace (n : ℕ) : List (ℚ × Outcome ℕ ℕ) :=
  (List.range n).map fun i => ((30 * i : ℚ), Outcome.excRaise 0)

/-- Concrete breaker configuration used for counterexamples and witnesses:
`failure_threshold = 1`, `recovery_timeout = 30`, every exception expected
(the class default `EXPECTED_EXCEPTION = Exception`). -/
def cfgOne : Config ℕ :=
  { failure_threshold := 1
    recovery_timeout := 30
    expected := fun _ => true
    name := "svc" }

/-- Concrete configuration whose threshold `2 ^ 31` exceeds the largest value a
`ctypes.c_int` failure counter can ever hold. -/
def cfgBig : Config ℕ :=
  { failure_threshold := 2 ^ 31
    recovery_timeout := 30
    expected := fun _ => true
    name := "svc" }

/-- Concrete breaker configuration with the defaults of the concrete spec
scenario (`threshold=3`, `recovery_timeout=5`). -/
def cfgThree : Config ℕ :=
  { failure_threshold := 3
    recovery_timeout := 5
    expected := fun e => e = 0
    name := "api" }

/-- A breaker whose stored fields are count 5, `STATE_OPEN`, opened at time 0. -/
def bOpen5 : Breaker :=
  { underscore_failure_count := 5
    underscore_state := State.OPEN
    underscore_opened := 0 }

/-- A breaker with one counted failure, stored `OPEN`, opened at time 0 (the
state a fresh `cfgOne` breaker reaches after its first guarded failure). -/
def bOne : Breaker :=
  { underscore_failure_count := 1
    underscore_state := State.OPEN
    underscore_opened := 0 }

/-- A breaker whose `c_int` failure counter sits at `INT_MAX`, stored `OPEN`,
opened at time 0 (reached by `INT_MAX` consecutive guarded failures under
`cfgOne`-like settings). -/
def bSaturated : Breaker :=
  { underscore_failure_count := INT_MAX
    underscore_state := State.OPEN
    underscore_opened := 0 }

/-- End state of `2 ^ 31` spaced guarded failures against a `cfgOne` breaker. -/
def sWrapped : Breaker :=
  runTrace cfgOne (initState 0) (spacedTrace (2 ^ 31))

/-- End state of `2 ^ 31 - 1` spaced guarded failures against a `cfgOne`
breaker (the prefix of the `sWrapped` run just before the counter wraps). -/
def sPreWrap : Breaker :=
  runTrace cfgOne (initState 0) (spacedTrace (2 ^ 31 - 1))

/-! Helper lemmas shared by the claim theorems. -/

theorem wrap32_bounds (x : ℤ) : INT_MIN ≤ wrap32 x ∧ wrap32 x ≤ INT_MAX := by
  unfold wrap32 INT_MIN INT_MAX
  omega

theorem wrap32_eq_self {x : ℤ} (h1 : INT_MIN ≤ x) (h2 : x ≤ INT_MAX) :
    wrap32 x = x := by
  unfold wrap32 INT_MIN INT_MAX at *
  omega

theorem runTrace_append (cfg : Config ε) (b : Breaker)
    (l1 l2 : List (ℚ × Outcome α ε)) :
    runTrace cfg b (l1 ++ l2) = runTrace cfg (runTrace cfg b l1) l2 := by
  induction l1 generalizing b with
  | nil => rfl
  | cons x rest ih => cases x; simp only [List.cons_append, runTrace]; exact ih _

theorem state_eq_OPEN_iff (cfg : Config ε) (b : Breaker) (now : ℚ) :
    state cfg b now = State.OPEN ↔
      b.underscore_state = State.OPEN ∧
        now < b.underscore_opened + cfg.recovery_timeout := by
  unfold state open_remaining open_until
  split
  · rename_i h
    constructor
    · intro hco; cases hco
    · rintro ⟨-, hlt⟩; linarith [h.2]
  · rename_i h
    constructor
    · intro hst
      refine ⟨hst, ?_⟩
      by_contra hge
      exact h ⟨hst, by linarith [not_lt.mp hge]⟩
    · exact fun hp => hp.1

theorem state_of_stored_CLOSED (cfg : Config ε) (b : Breaker) (now : ℚ)
    (h : b.underscore_state = State.CLOSED) : state cfg b now = State.CLOSED := by
  unfold state
  split
  · rename_i hc; rw [h] at hc; cases hc.1
  · exact h

theorem opened_eq_true_iff (cfg : Config ε) (b : Breaker) (now : ℚ) :
    opened cfg b now = true ↔ state cfg b now = State.OPEN := by
  unfold opened
  exact decide_eq_true_iff

theorem closed_eq_true_iff (cfg : Config ε) (b : Breaker) (now : ℚ) :
    closed cfg b now = true ↔ state cfg b now = State.CLOSED := by
  unfold closed
  exact decide_eq_true_iff

theorem call_of_opened {cfg : Config ε} {b : Breaker} {now : ℚ}
    (f : Outcome α ε) (h : state cfg b now = State.OPEN) :
    call cfg b now f =
      { post := b, result := CallResult.rejected, invoked := false } := by
  unfold call
  rw [if_pos ((opened_eq_true_iff cfg b now).mpr h)]

theorem call_success_of_not_opened {cfg : Config ε} {b : Breaker} {now : ℚ}
    (v : α) (h : state cfg b now ≠ State.OPEN) :
    call (ε := ε) cfg b now (Outcome.success v) =
      { post := call_succeeded b, result := CallResult.value v, invoked := true } := by
  unfold call
  rw [if_neg (by simpa [opened_eq_true_iff] using h)]

theorem call_expected_of_not_opened {cfg : Config ε} {b : Breaker} {now : ℚ}
    {e : ε} (h : state cfg b now ≠ State.OPEN) (hexp : cfg.expected e = true) :
    call (α := α) cfg b now (Outcome.excRaise e) =
      { post := call_failed cfg b now, result := CallResult.raised e,
        invoked := true } := by
  unfold call
  rw [if_neg (by simpa [opened_eq_true_iff] using h)]
  simp [hexp]

theorem call_unexpected_of_not_opened {cfg : Config ε} {b : Breaker} {now : ℚ}
    {e : ε} (h : state cfg b now ≠ State.OPEN) (hexp : cfg.expected e = false) :
    call (α := α) cfg b now (Outcome.excRaise e) =
      { post := b, result := CallResult.raised e, invoked := true } := by
  unfold call
  rw [if_neg (by simpa [opened_eq_true_iff] using h)]
  simp [hexp]

/-- C1: `call` raises `CircuitBreakerError` (result `rejected`) if and only if
the derived state at the initial check is `OPEN` — equivalently, the stored
state is `OPEN` and `now < opened_at + recovery_timeout` — and exactly then the
wrapped operation is not invoked; in the derived `CLOSED` and `HALF_OPEN`
states the operation is invoked. -/
theorem C1_call_rejects_iff_effective_OPEN (cfg : Config ε) (b : Breaker)
    (now : ℚ) (f : Outcome α ε) :
    ((call cfg b now f).result = CallResult.rejected ↔
        state cfg b now = State.OPEN)
  ∧ (state cfg b now = State.OPEN ↔
        b.underscore_state = State.OPEN ∧
          now < b.underscore_opened + cfg.recovery_timeout)
  ∧ ((call cfg b now f).invoked = false ↔ state cfg b now = State.OPEN) := by
  refine ⟨?_, state_eq_OPEN_iff cfg b now, ?_⟩ <;>
  · by_cases h : state cfg b now = State.OPEN
    · rw [call_of_opened f h]
      simp [h]
    · cases f with
      | success v =>
        rw [call_success_of_not_opened v h]
        simp [h]
      | excRaise e =>
        cases hexp : cfg.expected e with
        | true =>
          rw [call_expected_of_not_opened h hexp]
          simp [h]
        | false =>
          rw [call_unexpected_of_not_opened h hexp]
          simp [h]

/-- Witness for C1 at a concrete input: a breaker two seconds into a
five-second open window rejects a call without invoking the operation. -/
theorem C1_call_rejects_iff_effective_OPEN_witness :
    (call cfgThree bOpen5 2 (Outcome.success (7 : ℕ))).result =
      CallResult.rejected
  ∧ (call cfgThree bOpen5 2 (Outcome.success (7 : ℕ))).invoked = false := by
  have h := C1_call_rejects_iff_effective_OPEN cfgThree bOpen5 2
    (Outcome.success (7 : ℕ))
  have hopen : state cfgThree bOpen5 2 = State.OPEN := by
    unfold state
    norm_num [open_remaining, open_until, cfgThree, bOpen5]
  exact ⟨h.1.mpr hopen, h.2.2.mpr hopen⟩

/-- C6: a call whose operation returns normally, made while the derived state
is not `OPEN`, leaves the breaker with failure count 0, derived state `CLOSED`
at every subsequent read, and hands the operation's result back unchanged. -/
theorem C6_success_closes (cfg : Config ε) (b : Breaker) (now : ℚ) (v : α)
    (h : state cfg b now ≠ State.OPEN) :
    failure_count (call (ε := ε) cfg b now (Outcome.success v)).post = 0
  ∧ (∀ t : ℚ,
      state cfg (call (ε := ε) cfg b now (Outcome.success v)).post t =
        State.CLOSED)
  ∧ (call (ε := ε) cfg b now (Outcome.success v)).result =
      CallResult.value v := by
  rw [call_success_of_not_opened v h]
  exact ⟨rfl, fun t => state_of_stored_CLOSED _ _ _ rfl, rfl⟩

/-- Witness for C6 at a concrete input: a success during the derived
`HALF_OPEN` window resets the counter, closes the breaker, and returns 3. -/
theorem C6_success_closes_witness :
    failure_count (call (ε := ℕ) cfgThree bOpen5 5 (Outcome.success (3 : ℕ))).post = 0
  ∧ state cfgThree (call (ε := ℕ) cfgThree bOpen5 5 (Outcome.success (3 : ℕ))).post 5 =
      State.CLOSED
  ∧ (call (ε := ℕ) cfgThree bOpen5 5 (Outcome.success (3 : ℕ))).result =
      CallResult.value 3 := by
  have hho : state cfgThree bOpen5 5 = State.HALF_OPEN := by
    unfold state
    norm_num [open_remaining, open_until, cfgThree, bOpen5]
  have hs : state cfgThree bOpen5 5 ≠ State.OPEN := by
    rw [hho]
    decide
  have h := C6_success_closes cfgThree bOpen5 5 (3 : ℕ) hs
  exact ⟨h.1, h.2.1 5, h.2.2⟩

/-- C7: an exception not matching `_expected_exception` leaves every stored
field of the breaker (failure count, stored state, opened-at stamp) unchanged,
and, whenever the operation was actually invoked (derived state not `OPEN`),
is re-raised to the caller unchanged. -/
theorem C7_unguarded_exception_frame (cfg : Config ε) (b : Breaker) (now : ℚ)
    (e : ε) (hexp : cfg.expected e = false) :
    (call (α := α) cfg b now (Outcome.excRaise e)).post = b
  ∧ (state cfg b now ≠ State.OPEN →
      (call (α := α) cfg b now (Outcome.excRaise e)).result =
        CallResult.raised e) := by
  by_cases h : state cfg b now = State.OPEN
  · rw [call_of_opened _ h]
    exact ⟨rfl, fun hn => absurd h hn⟩
  · rw [call_unexpected_of_not_opened h hexp]
    exact ⟨rfl, fun _ => rfl⟩

/-- Witness for C7 at a concrete input: exception `1` is not of `cfgThree`'s
guarded kind, so a fresh breaker is left untouched and the exception
propagates. -/
theorem C7_unguarded_exception_frame_witness :
    (call (α := ℕ) cfgThree (initState 0) 0 (Outcome.excRaise 1)).post =
      initState 0
  ∧ (call (α := ℕ) cfgThree (initState 0) 0 (Outcome.excRaise 1)).result =
      CallResult.raised 1 := by
  have h := C7_unguarded_exception_frame (α := ℕ) cfgThree (initState 0) 0 1
    (by simp [cfgThree])
  refine ⟨h.1, h.2 ?_⟩
  rw [state_of_stored_CLOSED cfgThree (initState 0) 0 rfl]
  simp

/-- C10: constructing a breaker with `failure_threshold=0` or
`recovery_timeout=0` silently discards the zero (it is falsy under Python
`or`) and leaves the class defaults 5 and 30 in effect. -/
theorem C10_zero_arguments_fall_back_to_defaults (ε' : Type) (ft : Option ℤ)
    (rt : Option ℚ) (expected : ε' → Bool) (nm : String) :
    (initConfig ε' (some 0) rt expected nm).failure_threshold = 5
  ∧ (initConfig ε' ft (some 0) expected nm).recovery_timeout = 30
  ∧ (initConfig ε' (some 0) rt expected nm).failure_threshold ≠ 0
  ∧ (initConfig ε' ft (some 0) expected nm).recovery_timeout ≠ 0 := by
  refine ⟨rfl, ?_, ?_, ?_⟩
  · norm_num [initConfig, pyOrRat, RECOVERY_TIMEOUT]
  · norm_num [initConfig, pyOrInt, FAILURE_THRESHOLD]
  · norm_num [initConfig, pyOrRat, RECOVERY_TIMEOUT]

/-- Witness for C10 at a concrete input. -/
theorem C10_zero_arguments_fall_back_to_defaults_witness :
    (initConfig ℕ (some 0) (some 0) (fun _ => true) "svc").failure_threshold = 5
  ∧ (initConfig ℕ (some 0) (some 0) (fun _ => true) "svc").recovery_timeout = 30 := by
  have h := C10_zero_arguments_fall_back_to_defaults ℕ (some 0) (some 0)
    (fun _ => true) "svc"
  exact ⟨h.1, h.2.1⟩

theorem opened_eq_false_iff (cfg : Config ε) (b : Breaker) (now : ℚ) :
    opened cfg b now = false ↔ state cfg b now ≠ State.OPEN := by
  unfold opened
  simp

theorem closed_eq_false_iff (cfg : Config ε) (b : Breaker) (now : ℚ) :
    closed cfg b now = false ↔ state cfg b now ≠ State.CLOSED := by
  unfold closed
  simp

/-- Counterexample to C3 as stated: a breaker whose recovery window has fully
elapsed is in the derived `HALF_OPEN` state, where `opened` and `closed` are
both false — so it is not the case that exactly one of them holds. -/
theorem C3_counterexample :
    opened cfgThree bOpen5 5 = false
  ∧ closed cfgThree bOpen5 5 = false
  ∧ state cfgThree bOpen5 5 = State.HALF_OPEN := by
  have hho : state cfgThree bOpen5 5 = State.HALF_OPEN := by
    unfold state
    norm_num [open_remaining, open_until, cfgThree, bOpen5]
  refine ⟨?_, ?_, hho⟩
  · rw [opened_eq_false_iff, hho]
    decide
  · rw [closed_eq_false_iff, hho]
    decide

/-- C3 amended: for every breaker at every read instant at most one of
`opened`/`closed` holds, and both fail exactly when the derived state is
`HALF_OPEN`; the registry's `all_closed()` returns true if and only if the
open-breakers enumeration yields no breaker. -/
theorem C3_amended (cfg : Config ε) (b : Breaker) (now : ℚ)
    (regs : List (Entry ε)) :
    ¬(opened cfg b now = true ∧ closed cfg b now = true)
  ∧ ((opened cfg b now = false ∧ closed cfg b now = false) ↔
      state cfg b now = State.HALF_OPEN)
  ∧ (all_closed regs now = true ↔ get_open regs now = []) := by
  refine ⟨?_, ?_, ?_⟩
  · rintro ⟨ho, hc⟩
    rw [opened_eq_true_iff] at ho
    rw [closed_eq_true_iff] at hc
    rw [ho] at hc
    cases hc
  · rw [opened_eq_false_iff, closed_eq_false_iff]
    constructor
    · rintro ⟨hno, hnc⟩
      cases h : state cfg b now with
      | CLOSED => exact absurd h hnc
      | OPEN => exact absurd h hno
      | HALF_OPEN => rfl
    · intro h
      rw [h]
      exact ⟨by decide, by decide⟩
  · unfold all_closed
    simp [List.length_eq_zero]

/-- Witness for C3 amended at a concrete input: a registry holding one freshly
constructed (closed) breaker reports `all_closed`. -/
theorem C3_amended_witness :
    all_closed [Entry.mk cfgThree (initState 0)] 0 = true := by
  have h := (C3_amended cfgThree (initState 0) 0
    [Entry.mk cfgThree (initState 0)]).2.2
  apply h.mpr
  have hop : opened cfgThree (initState 0) 0 = false := by
    rw [opened_eq_false_iff, state_of_stored_CLOSED cfgThree (initState 0) 0 rfl]
    decide
  simp [get_open, hop]

/-- Counterexample to C4 as stated: the message of a `CircuitBreakerError`
rendered 95 seconds after the open window expired carries the negative
remaining value `-95` — the code does not clamp `round(open_remaining)` to be
non-negative.  (`open_until`, formatted by `%s`, prints as the float string
`5.0`.) -/
theorem C4_counterexample :
    errorMessage cfgThree bOpen5 100 =
      "Circuit \"api\" OPEN until 5.0 (5 failures, -95 sec remaining)"
  ∧ pyRound (open_remaining cfgThree bOpen5 100) = -95
  ∧ pyRound (open_remaining cfgThree bOpen5 100) < 0 := by
  have hou : open_until cfgThree bOpen5 = 5 := by
    unfold open_until
    norm_num [cfgThree, bOpen5]
  have h1 : pyFloatStr (open_until cfgThree bOpen5) = "5.0" := by
    rw [hou]
    rfl
  have h2 : pyRound (open_remaining cfgThree bOpen5 100) = -95 := by
    unfold pyRound open_remaining open_until
    norm_num [cfgThree, bOpen5]
    rw [Int.ceil_eq_iff]
    norm_num
  refine ⟨?_, h2, by rw [h2]; decide⟩
  unfold errorMessage
  rw [h1, h2]
  rfl

/-- C4 amended: the rendered message contains the breaker's name, its
`open_until` timestamp (rendered by `%s` as the float's string), its current
failure count, and the rounded `open_remaining` seconds; that remaining value
is non-negative whenever rendering happens while `now ≤ open_until` (in
particular at the instant the error is raised), but may be negative when the
error is rendered after the window has elapsed. -/
theorem C4_amended (cfg : Config ε) (b : Breaker) (now : ℚ) :
    (∃ s1 s2 s3 s4 s5 : String,
      errorMessage cfg b now =
        s1 ++ cfg.name ++ s2 ++ pyFloatStr (open_until cfg b) ++ s3 ++
          toString (failure_count b) ++ s4 ++
          toString (pyRound (open_remaining cfg b now)) ++ s5)
  ∧ (0 ≤ open_remaining cfg b now → 0 ≤ pyRound (open_remaining cfg b now)) := by
  constructor
  · exact ⟨"Circuit \"", "\" OPEN until ", " (", " failures, ",
      " sec remaining)", rfl⟩
  · intro h
    unfold pyRound
    rw [if_pos h]
    have hq : (0 : ℚ) ≤ open_remaining cfg b now + 1 / 2 := by linarith
    exact Int.floor_nonneg.mpr hq

/-- Witness for C4 amended at a concrete input: rendered two seconds before
the window expires, the remaining value is non-negative. -/
theorem C4_amended_witness :
    0 ≤ pyRound (open_remaining cfgThree bOpen5 3) := by
  apply (C4_amended cfgThree bOpen5 3).2
  unfold open_remaining open_until
  norm_num [cfgThree, bOpen5]

theorem state_eq_HALF_OPEN_iff (cfg : Config ε) (b : Breaker) (now : ℚ)
    (hst : b.underscore_state ≠ State.HALF_OPEN) :
    state cfg b now = State.HALF_OPEN ↔
      b.underscore_state = State.OPEN ∧
        b.underscore_opened + cfg.recovery_timeout ≤ now := by
  unfold state open_remaining open_until
  split
  · rename_i h
    exact ⟨fun _ => ⟨h.1, by linarith [h.2]⟩, fun _ => rfl⟩
  · rename_i h
    constructor
    · intro hb
      exact absurd hb hst
    · intro hp
      exact absurd ⟨hp.1, by linarith [hp.2]⟩ h

theorem state_eq_stored_of_not_elapsed (cfg : Config ε) (b : Breaker) (now : ℚ)
    (h : ¬(b.underscore_state = State.OPEN ∧
            b.underscore_opened + cfg.recovery_timeout ≤ now)) :
    state cfg b now = b.underscore_state := by
  unfold state open_remaining open_until
  rw [if_neg]
  intro hc
  exact h ⟨hc.1, by linarith [hc.2]⟩

theorem call_failed_cases (cfg : Config ε) (b : Breaker) (now : ℚ) :
    (call_failed cfg b now =
        { underscore_failure_count := wrap32 (b.underscore_failure_count + 1),
          underscore_state := State.OPEN, underscore_opened := now }
      ∧ cfg.failure_threshold ≤ wrap32 (b.underscore_failure_count + 1))
  ∨ (call_failed cfg b now =
        { b with underscore_failure_count :=
            wrap32 (b.underscore_failure_count + 1) }
      ∧ wrap32 (b.underscore_failure_count + 1) < cfg.failure_threshold) := by
  simp only [call_failed]
  by_cases h : cfg.failure_threshold ≤ wrap32 (b.underscore_failure_count + 1)
  · exact Or.inl ⟨by rw [if_pos h], h⟩
  · exact Or.inr ⟨by rw [if_neg h], lt_of_not_le h⟩

theorem reachable_stored_CLOSED_or_OPEN (cfg : Config ε) (b : Breaker)
    (h : Reachable cfg b) :
    b.underscore_state = State.CLOSED ∨ b.underscore_state = State.OPEN := by
  induction h with
  | init t0 => exact Or.inl rfl
  | step now f hr ih =>
    rename_i b' α
    by_cases ho : state cfg b' now = State.OPEN
    · rw [call_of_opened f ho]
      exact ih
    · cases f with
      | success v =>
        rw [call_success_of_not_opened v ho]
        exact Or.inl rfl
      | excRaise e =>
        cases hexp : cfg.expected e with
        | true =>
          rw [call_expected_of_not_opened ho hexp]
          rcases call_failed_cases cfg b' now with hcf | hcf
          · rw [hcf.1]
            exact Or.inr rfl
          · rw [hcf.1]
            exact ih
        | false =>
          rw [call_unexpected_of_not_opened ho hexp]
          exact ih

/-- C8: in every reachable breaker state the stored state field holds `CLOSED`
or `OPEN` — `HALF_OPEN` is never written — and the derived read returns
`HALF_OPEN` exactly when the stored state is `OPEN` and
`now >= opened_at + recovery_timeout`, returning the stored state otherwise. -/
theorem C8_HALF_OPEN_is_derived_never_stored (cfg : Config ε) (b : Breaker)
    (h : Reachable cfg b) :
    (b.underscore_state = State.CLOSED ∨ b.underscore_state = State.OPEN)
  ∧ (∀ now : ℚ,
      state cfg b now = State.HALF_OPEN ↔
        b.underscore_state = State.OPEN ∧
          b.underscore_opened + cfg.recovery_timeout ≤ now)
  ∧ (∀ now : ℚ,
      ¬(b.underscore_state = State.OPEN ∧
          b.underscore_opened + cfg.recovery_timeout ≤ now) →
        state cfg b now = b.underscore_state) := by
  have hinv := reachable_stored_CLOSED_or_OPEN cfg b h
  have hnst : b.underscore_state ≠ State.HALF_OPEN := by
    rcases hinv with hc | hc <;> rw [hc] <;> decide
  exact ⟨hinv, fun now => state_eq_HALF_OPEN_iff cfg b now hnst,
    fun now => state_eq_stored_of_not_elapsed cfg b now⟩

/-- Witness for C8 at a concrete input: a freshly constructed breaker is
reachable, its stored state is `CLOSED` or `OPEN`, and at construction time it
does not read `HALF_OPEN`. -/
theorem C8_HALF_OPEN_is_derived_never_stored_witness :
    ((initState 0).underscore_state = State.CLOSED ∨
      (initState 0).underscore_state = State.OPEN)
  ∧ state cfgThree (initState 0) 0 ≠ State.HALF_OPEN := by
  have h := C8_HALF_OPEN_is_derived_never_stored cfgThree (initState 0)
    (Reachable.init 0)
  refine ⟨h.1, fun hh => ?_⟩
  have := (h.2.1 0).mp hh
  rw [show (initState 0).underscore_state = State.CLOSED from rfl] at this
  cases this.1

theorem runConst_closed (cfg : Config ε) (t : ℚ) (e : ε)
    (hexp : cfg.expected e = true) :
    ∀ (k : ℕ) (b : Breaker), b.underscore_state = State.CLOSED →
      0 ≤ b.underscore_failure_count →
      b.underscore_failure_count + k ≤ INT_MAX →
      b.underscore_failure_count + k < cfg.failure_threshold →
      runTrace cfg b (constTrace t e k (α := α)) =
        { b with underscore_failure_count :=
            b.underscore_failure_count + k } := by
  intro k
  induction k with
  | zero =>
    intro b hb h0 hmax hth
    cases b
    simp [constTrace, runTrace]
  | succ k ih =>
    intro b hb h0 hmax hth
    have hno : state cfg b t ≠ State.OPEN := by
      rw [state_of_stored_CLOSED cfg b t hb]
      decide
    have hcons : constTrace t e (k + 1) (α := α) =
        (t, Outcome.excRaise e) :: constTrace t e k := by
      simp [constTrace, List.replicate_succ]
    rw [hcons, runTrace, call_expected_of_not_opened hno hexp]
    have hw : wrap32 (b.underscore_failure_count + 1) =
        b.underscore_failure_count + 1 := by
      apply wrap32_eq_self
      · unfold INT_MIN
        omega
      · push_cast at hmax
        omega
    rcases call_failed_cases cfg b t with hcf | hcf
    · exfalso
      rw [hw] at hcf
      push_cast at hth
      omega
    · rw [hcf.1, hw]
      have := ih { b with underscore_failure_count :=
          b.underscore_failure_count + 1 }
      simp only at this
      rw [this hb (by omega) (by push_cast at hmax ⊢; omega)
        (by push_cast at hth ⊢; omega)]
      congr 1
      push_cast
      ring

/-- C2 amended: for every breaker whose threshold `T` satisfies
`1 ≤ T ≤ 2 ^ 31 - 1` (so that the `ctypes.c_int` failure counter can actually
reach it) and whose recovery timeout is positive, `T` consecutive guarded
failures starting from the initial `CLOSED` state leave the derived state
`OPEN` when read at the time of the last failure. -/
theorem C2_amended_threshold_failures_open (cfg : Config ε) (e : ε)
    (t0 t : ℚ) (T : ℕ)
    (hexp : cfg.expected e = true)
    (hT1 : 1 ≤ T)
    (hTmax : (T : ℤ) ≤ INT_MAX)
    (hth : cfg.failure_threshold = (T : ℤ))
    (htimeout : 0 < cfg.recovery_timeout) :
    state cfg (runTrace cfg (initState t0) (constTrace t e T (α := α))) t =
      State.OPEN := by
  obtain ⟨S, rfl⟩ : ∃ S, T = S + 1 := ⟨T - 1, by omega⟩
  have hsplit : constTrace t e (S + 1) (α := α) =
      constTrace t e S ++ [(t, Outcome.excRaise e)] := by
    simp [constTrace, List.replicate_succ']
  rw [hsplit, runTrace_append]
  have hrun := runConst_closed (α := α) cfg t e hexp S (initState t0) rfl
    (by simp [initState]) (by simp [initState]; push_cast at hTmax; omega)
    (by simp [initState, hth])
  rw [hrun]
  have hno : state cfg
      { initState t0 with underscore_failure_count :=
          (initState t0).underscore_failure_count + S } t ≠ State.OPEN := by
    rw [state_of_stored_CLOSED cfg _ t rfl]
    decide
  rw [show runTrace cfg
      { initState t0 with underscore_failure_count :=
          (initState t0).underscore_failure_count + S }
      [(t, Outcome.excRaise e)] =
      (call cfg
        { initState t0 with underscore_failure_count :=
            (initState t0).underscore_failure_count + S } t
        (Outcome.excRaise e)).post from rfl]
  rw [call_expected_of_not_opened hno hexp]
  have hw : wrap32 ((initState t0).underscore_failure_count + S + 1) =
      (S : ℤ) + 1 := by
    rw [show (initState t0).underscore_failure_count + (S : ℤ) + 1 =
      (S : ℤ) + 1 by simp [initState]]
    apply wrap32_eq_self
    · unfold INT_MIN
      omega
    · push_cast at hTmax
      omega
  rcases call_failed_cases cfg
      { initState t0 with underscore_failure_count :=
          (initState t0).underscore_failure_count + S } t with hcf | hcf
  · rw [hcf.1]
    rw [state_eq_OPEN_iff]
    exact ⟨rfl, by linarith⟩
  · exfalso
    simp only at hcf
    rw [hw, hth] at hcf
    push_cast at hcf
    omega

/-- Witness for C2 amended at a concrete input: three guarded failures against
a threshold-3 breaker open it. -/
theorem C2_amended_threshold_failures_open_witness :
    state cfgThree
      (runTrace cfgThree (initState 0) (constTrace 0 0 3 (α := ℕ))) 0 =
      State.OPEN := by
  apply C2_amended_threshold_failures_open cfgThree 0 0 0 3 rfl
    (by norm_num) (by norm_num [INT_MAX]) (by norm_num [cfgThree])
    (by norm_num [cfgThree])

theorem runConst_stays_CLOSED_of_big_threshold (cfg : Config ε) (t : ℚ)
    (e : ε) (hexp : cfg.expected e = true)
    (hbig : INT_MAX < cfg.failure_threshold) :
    ∀ (k : ℕ) (b : Breaker), b.underscore_state = State.CLOSED →
      (runTrace cfg b (constTrace t e k (α := α))).underscore_state =
        State.CLOSED := by
  intro k
  induction k with
  | zero =>
    intro b hb
    exact hb
  | succ k ih =>
    intro b hb
    have hno : state cfg b t ≠ State.OPEN := by
      rw [state_of_stored_CLOSED cfg b t hb]
      decide
    have hcons : constTrace t e (k + 1) (α := α) =
        (t, Outcome.excRaise e) :: constTrace t e k := by
      simp [constTrace, List.replicate_succ]
    rw [hcons, runTrace, call_expected_of_not_opened hno hexp]
    rcases call_failed_cases cfg b t with hcf | hcf
    · exfalso
      have := wrap32_bounds (b.underscore_failure_count + 1)
      omega
    · rw [hcf.1]
      exact ih _ hb

/-- Counterexample to C2 as stated: with `failure_threshold = 2 ^ 31` (a
positive integer one beyond `INT_MAX`), the `c_int` failure counter wraps to
negative before it can ever reach the threshold, so `2 ^ 31` consecutive
guarded failures leave the derived state `CLOSED`, not `OPEN`. -/
theorem C2_counterexample :
    state cfgBig
      (runTrace cfgBig (initState 0) (constTrace 0 0 (2 ^ 31) (α := ℕ))) 0 =
      State.CLOSED
  ∧ state cfgBig
      (runTrace cfgBig (initState 0) (constTrace 0 0 (2 ^ 31) (α := ℕ))) 0 ≠
      State.OPEN
  ∧ cfgBig.failure_threshold = 2 ^ 31
  ∧ 0 < cfgBig.failure_threshold := by
  have hstored := runConst_stays_CLOSED_of_big_threshold (α := ℕ) cfgBig 0 0
    rfl (by norm_num [INT_MAX, cfgBig]) (2 ^ 31) (initState 0) rfl
  have hclosed := state_of_stored_CLOSED cfgBig
    (runTrace cfgBig (initState 0) (constTrace 0 0 (2 ^ 31) (α := ℕ))) 0
    hstored
  refine ⟨hclosed, ?_, rfl, by norm_num [cfgBig]⟩
  rw [hclosed]
  decide

/-- C5 amended: a guarded failure while the derived state is `HALF_OPEN`
re-stamps `opened_at` to the current time and keeps the stored state `OPEN`,
so the derived state reads `OPEN` throughout the following full
`recovery_timeout` window — provided the `c_int` failure counter has room to
increment without wrapping (`failure_count < 2 ^ 31 - 1`; every state
reachable with at most `2 ^ 31 - 1` guarded failures satisfies
`0 ≤ failure_count` and, when stored-`OPEN`, `failure_threshold ≤
failure_count`, see the C9 development). -/
theorem C5_amended_half_open_failure_restamps (cfg : Config ε) (b : Breaker)
    (now : ℚ) (e : ε)
    (hexp : cfg.expected e = true)
    (hstored : b.underscore_state = State.OPEN)
    (hth : cfg.failure_threshold ≤ b.underscore_failure_count)
    (h0 : 0 ≤ b.underscore_failure_count)
    (hmax : b.underscore_failure_count < INT_MAX)
    (helapsed : b.underscore_opened + cfg.recovery_timeout ≤ now) :
    state cfg b now = State.HALF_OPEN
  ∧ (call (α := α) cfg b now (Outcome.excRaise e)).post.underscore_state =
      State.OPEN
  ∧ (call (α := α) cfg b now (Outcome.excRaise e)).post.underscore_opened = now
  ∧ ∀ t : ℚ, now ≤ t → t < now + cfg.recovery_timeout →
      state cfg (call (α := α) cfg b now (Outcome.excRaise e)).post t =
        State.OPEN := by
  have hho : state cfg b now = State.HALF_OPEN :=
    (state_eq_HALF_OPEN_iff cfg b now (by rw [hstored]; decide)).mpr
      ⟨hstored, helapsed⟩
  have hnopen : state cfg b now ≠ State.OPEN := by
    rw [hho]
    decide
  rw [call_expected_of_not_opened hnopen hexp]
  have hw : wrap32 (b.underscore_failure_count + 1) =
      b.underscore_failure_count + 1 :=
    wrap32_eq_self (by unfold INT_MIN; omega) (by omega)
  rcases call_failed_cases cfg b now with hcf | hcf
  · rw [hcf.1]
    refine ⟨hho, rfl, rfl, fun t ht1 ht2 => ?_⟩
    rw [state_eq_OPEN_iff]
    exact ⟨rfl, ht2⟩
  · exfalso
    rw [hw] at hcf
    omega

/-- Witness for C5 amended at a concrete input: a failed trial call at the end
of the recovery window re-stamps `opened_at` to 30 and the breaker reads
`OPEN` at time 45. -/
theorem C5_amended_half_open_failure_restamps_witness :
    (call (α := ℕ) cfgOne bOne 30 (Outcome.excRaise 0)).post.underscore_opened
      = 30
  ∧ state cfgOne (call (α := ℕ) cfgOne bOne 30 (Outcome.excRaise 0)).post 45 =
      State.OPEN := by
  have h := C5_amended_half_open_failure_restamps (α := ℕ) cfgOne bOne 30 0
    rfl rfl (by norm_num [cfgOne, bOne]) (by norm_num [bOne])
    (by norm_num [bOne, INT_MAX]) (by norm_num [cfgOne, bOne])
  exact ⟨h.2.2.1, h.2.2.2 45 (by norm_num) (by norm_num [cfgOne])⟩

/-- Counterexample to C5 as stated: when the `c_int` failure counter sits at
`INT_MAX` (reachable: threshold 1 with `2 ^ 31 - 1` guarded failures spaced
one recovery window apart), the increment wraps to `INT_MIN`, the
threshold test fails, and the guarded failure during `HALF_OPEN` does NOT
re-stamp `opened_at` — the breaker reads `HALF_OPEN`, not `OPEN`, right after
the failed trial call. -/
theorem C5_counterexample :
    state cfgOne bSaturated 30 = State.HALF_OPEN
  ∧ cfgOne.expected 0 = true
  ∧ (call (α := ℕ) cfgOne bSaturated 30
      (Outcome.excRaise 0)).post.underscore_opened = 0
  ∧ (call (α := ℕ) cfgOne bSaturated 30
      (Outcome.excRaise 0)).post.underscore_opened ≠ 30
  ∧ state cfgOne
      (call (α := ℕ) cfgOne bSaturated 30 (Outcome.excRaise 0)).post 31 ≠
      State.OPEN := by
  have hho : state cfgOne bSaturated 30 = State.HALF_OPEN :=
    (state_eq_HALF_OPEN_iff cfgOne bSaturated 30 (by decide)).mpr
      ⟨rfl, by norm_num [cfgOne, bSaturated]⟩
  have hnopen : state cfgOne bSaturated 30 ≠ State.OPEN := by
    rw [hho]
    decide
  rw [call_expected_of_not_opened hnopen rfl]
  have hw : wrap32 (bSaturated.underscore_failure_count + 1) = INT_MIN := by
    show wrap32 (INT_MAX + 1) = INT_MIN
    norm_num [wrap32, INT_MAX, INT_MIN]
  rcases call_failed_cases cfgOne bSaturated 30 with hcf | hcf
  · exfalso
    rw [hw] at hcf
    have : cfgOne.failure_threshold = 1 := rfl
    rw [this] at hcf
    unfold INT_MIN at hcf
    omega
  · rw [hcf.1]
    refine ⟨hho, rfl, rfl, by norm_num [bSaturated], fun hc => ?_⟩
    rw [state_eq_OPEN_iff] at hc
    have h2 := hc.2
    norm_num [bSaturated, cfgOne] at h2

theorem countExpected_append (cfg : Config ε)
    (l1 l2 : List (ℚ × Outcome α ε)) :
    countExpected cfg (l1 ++ l2) =
      countExpected cfg l1 + countExpected cfg l2 := by
  induction l1 with
  | nil => simp [countExpected]
  | cons x rest ih =>
    obtain ⟨t, f⟩ := x
    cases f <;> simp [countExpected, ih]
    omega

theorem run_count_invariant (cfg : Config ε) :
    ∀ (tr : List (ℚ × Outcome α ε)) (b : Breaker) (bound : ℤ),
      0 ≤ b.underscore_failure_count →
      b.underscore_failure_count ≤ bound →
      (b.underscore_state = State.OPEN →
        cfg.failure_threshold ≤ b.underscore_failure_count) →
      bound + (countExpected cfg tr : ℤ) ≤ INT_MAX →
      0 ≤ (runTrace cfg b tr).underscore_failure_count
    ∧ (runTrace cfg b tr).underscore_failure_count ≤
        bound + (countExpected cfg tr : ℤ)
    ∧ ((runTrace cfg b tr).underscore_state = State.OPEN →
        cfg.failure_threshold ≤
          (runTrace cfg b tr).underscore_failure_count) := by
  intro tr
  induction tr with
  | nil =>
    intro b bound h0 hb hinv hbound
    refine ⟨h0, ?_, hinv⟩
    show b.underscore_failure_count ≤ bound + ((0 : ℕ) : ℤ)
    omega
  | cons x rest ih =>
    obtain ⟨t, f⟩ := x
    intro b bound h0 hb hinv hbound
    cases f with
    | success v =>
      have hce : countExpected cfg ((t, Outcome.success v) :: rest) =
          countExpected cfg rest := rfl
      rw [hce] at hbound ⊢
      simp only [runTrace]
      by_cases ho : state cfg b t = State.OPEN
      · rw [call_of_opened _ ho]
        exact ih b bound h0 hb hinv hbound
      · rw [call_success_of_not_opened v ho]
        refine ih (call_succeeded b) bound ?_ ?_ ?_ hbound
        · show (0 : ℤ) ≤ 0
          omega
        · show (0 : ℤ) ≤ bound
          omega
        · intro hcs
          exact absurd hcs (by simp [call_succeeded])
    | excRaise e =>
      cases hexp : cfg.expected e with
      | false =>
        have hce : countExpected cfg ((t, Outcome.excRaise e) :: rest) =
            countExpected cfg rest := by
          simp [countExpected, hexp]
        rw [hce] at hbound ⊢
        simp only [runTrace]
        by_cases ho : state cfg b t = State.OPEN
        · rw [call_of_opened _ ho]
          exact ih b bound h0 hb hinv hbound
        · rw [call_unexpected_of_not_opened ho hexp]
          exact ih b bound h0 hb hinv hbound
      | true =>
        have hce : countExpected cfg ((t, Outcome.excRaise e) :: rest) =
            1 + countExpected cfg rest := by
          simp [countExpected, hexp]
        rw [hce] at hbound ⊢
        simp only [runTrace]
        by_cases ho : state cfg b t = State.OPEN
        · rw [call_of_opened _ ho]
          obtain ⟨i1, i2, i3⟩ := ih b bound h0 hb hinv (by push_cast at hbound ⊢; omega)
          refine ⟨i1, ?_, i3⟩
          push_cast at i2 ⊢
          omega
        · rw [call_expected_of_not_opened ho hexp]
          have hw : wrap32 (b.underscore_failure_count + 1) =
              b.underscore_failure_count + 1 :=
            wrap32_eq_self (by unfold INT_MIN; omega)
              (by push_cast at hbound; omega)
          rcases call_failed_cases cfg b t with hcf | hcf
          · rw [hw] at hcf
            rw [hcf.1]
            obtain ⟨i1, i2, i3⟩ := ih
              { underscore_failure_count := b.underscore_failure_count + 1,
                underscore_state := State.OPEN, underscore_opened := t }
              (bound + 1)
              (by show (0 : ℤ) ≤ b.underscore_failure_count + 1; omega)
              (by show b.underscore_failure_count + 1 ≤ bound + 1; omega)
              (fun _ => by
                show cfg.failure_threshold ≤ b.underscore_failure_count + 1
                exact hcf.2)
              (by push_cast at hbound ⊢; omega)
            refine ⟨i1, ?_, i3⟩
            push_cast at i2 ⊢
            omega
          · rw [hw] at hcf
            rw [hcf.1]
            obtain ⟨i1, i2, i3⟩ := ih
              { b with underscore_failure_count :=
                  b.underscore_failure_count + 1 }
              (bound + 1)
              (by show (0 : ℤ) ≤ b.underscore_failure_count + 1; omega)
              (by show b.underscore_failure_count + 1 ≤ bound + 1; omega)
              (fun hop => by
                show cfg.failure_threshold ≤ b.underscore_failure_count + 1
                have := hinv hop
                omega)
              (by push_cast at hbound ⊢; omega)
            refine ⟨i1, ?_, i3⟩
            push_cast at i2 ⊢
            omega

theorem call_count_mono (cfg : Config ε) (b : Breaker)
    (x : ℚ × Outcome α ε)
    (h0 : 0 ≤ b.underscore_failure_count)
    (hmax : b.underscore_failure_count + (countExpected cfg [x] : ℤ) ≤
      INT_MAX) :
    ((call cfg b x.1 x.2).post.underscore_state = State.CLOSED ∧
      (call cfg b x.1 x.2).post.underscore_failure_count = 0)
  ∨ b.underscore_failure_count ≤
      (call cfg b x.1 x.2).post.underscore_failure_count := by
  obtain ⟨t, f⟩ := x
  by_cases ho : state cfg b t = State.OPEN
  · rw [call_of_opened f ho]
    exact Or.inr le_rfl
  · cases f with
    | success v =>
      rw [call_success_of_not_opened v ho]
      exact Or.inl ⟨rfl, rfl⟩
    | excRaise e =>
      cases hexp : cfg.expected e with
      | false =>
        rw [call_unexpected_of_not_opened ho hexp]
        exact Or.inr le_rfl
      | true =>
        have hc1 :
            ((countExpected (α := α) cfg [(t, Outcome.excRaise e)] : ℕ) : ℤ) =
              1 := by
          simp [countExpected, hexp]
        rw [hc1] at hmax
        have hw : wrap32 (b.underscore_failure_count + 1) =
            b.underscore_failure_count + 1 :=
          wrap32_eq_self (by unfold INT_MIN; omega) (by omega)
        right
        rw [call_expected_of_not_opened ho hexp]
        show b.underscore_failure_count ≤
          (call_failed cfg b t).underscore_failure_count
        rcases call_failed_cases cfg b t with hcf | hcf <;>
          rw [hcf.1] <;>
          · show b.underscore_failure_count ≤
              wrap32 (b.underscore_failure_count + 1)
            rw [hw]
            omega

/-- C9 amended: along every run from construction that contains at most
`2 ^ 31 - 1` guarded-failure outcomes (so the `c_int` counter cannot wrap),
the failure count stays non-negative, stored `OPEN` implies
`failure_count >= failure_threshold`, and no single call decreases the count
except the success-transition, which resets it to 0 and stores `CLOSED`.
Beyond `2 ^ 31 - 1` guarded failures the 32-bit counter wraps and both
properties can fail (see the counterexample). -/
theorem C9_amended_open_implies_threshold_and_monotone (cfg : Config ε)
    (t0 : ℚ) (tr : List (ℚ × Outcome α ε))
    (hbound : (countExpected cfg tr : ℤ) ≤ INT_MAX) :
    (0 ≤ (runTrace cfg (initState t0) tr).underscore_failure_count)
  ∧ ((runTrace cfg (initState t0) tr).underscore_state = State.OPEN →
      cfg.failure_threshold ≤
        (runTrace cfg (initState t0) tr).underscore_failure_count)
  ∧ (∀ pre x rest, tr = pre ++ x :: rest →
      (((call cfg (runTrace cfg (initState t0) pre) x.1
            x.2).post.underscore_state = State.CLOSED ∧
        (call cfg (runTrace cfg (initState t0) pre) x.1
            x.2).post.underscore_failure_count = 0)
      ∨ (runTrace cfg (initState t0) pre).underscore_failure_count ≤
          (call cfg (runTrace cfg (initState t0) pre) x.1
            x.2).post.underscore_failure_count)) := by
  have hmain := run_count_invariant cfg tr (initState t0) 0
    (by show (0:ℤ) ≤ 0; omega) (by show (0:ℤ) ≤ 0; omega)
    (fun h => absurd h (by simp [initState]))
    (by omega)
  refine ⟨hmain.1, hmain.2.2, ?_⟩
  intro pre x rest hsplit
  have hdecomp : countExpected cfg tr =
      countExpected cfg pre + countExpected cfg ([x] ++ rest) := by
    rw [hsplit]
    rw [show pre ++ x :: rest = pre ++ ([x] ++ rest) from by simp]
    exact countExpected_append cfg pre ([x] ++ rest)
  have hdecomp2 : countExpected cfg ([x] ++ rest) =
      countExpected cfg [x] + countExpected cfg rest :=
    countExpected_append cfg [x] rest
  have hpre := run_count_invariant cfg pre (initState t0) 0
    (by show (0:ℤ) ≤ 0; omega) (by show (0:ℤ) ≤ 0; omega)
    (fun h => absurd h (by simp [initState]))
    (by push_cast at hbound ⊢; omega)
  apply call_count_mono cfg (runTrace cfg (initState t0) pre) x hpre.1
  have h2 := hpre.2.1
  push_cast at hbound h2 ⊢
  omega

/-- Witness for C9 amended at a concrete input: after one guarded failure
against a threshold-1 breaker, the stored state is `OPEN` and the count (1)
is at or above the threshold. -/
theorem C9_amended_open_implies_threshold_and_monotone_witness :
    cfgOne.failure_threshold ≤
      (runTrace cfgOne (initState 0)
        [((0 : ℚ), (Outcome.excRaise 0 : Outcome ℕ ℕ))]).underscore_failure_count := by
  have h := C9_amended_open_implies_threshold_and_monotone cfgOne 0
    [((0 : ℚ), (Outcome.excRaise 0 : Outcome ℕ ℕ))]
    (by norm_num [countExpected, cfgOne, INT_MAX])
  exact h.2.1 rfl

theorem wrap32_INT_MAX_succ : wrap32 (INT_MAX + 1) = INT_MIN := by
  norm_num [wrap32, INT_MAX, INT_MIN]

theorem spacedTrace_succ (n : ℕ) :
    spacedTrace (n + 1) =
      spacedTrace n ++ [((30 * n : ℚ), Outcome.excRaise 0)] := by
  simp [spacedTrace, List.range_succ]

theorem call_spaced_step (k : ℤ) (t tn : ℚ) (hk0 : 1 ≤ k)
    (hkM : k + 1 ≤ INT_MAX) (hel : t + 30 ≤ tn) :
    (call (α := ℕ) cfgOne ⟨k, State.OPEN, t⟩ tn (Outcome.excRaise 0)).post =
      ⟨k + 1, State.OPEN, tn⟩ := by
  have hho : state cfgOne ⟨k, State.OPEN, t⟩ tn = State.HALF_OPEN := by
    apply (state_eq_HALF_OPEN_iff cfgOne ⟨k, State.OPEN, t⟩ tn
      (show State.OPEN ≠ State.HALF_OPEN by decide)).mpr
    refine ⟨rfl, ?_⟩
    show t + cfgOne.recovery_timeout ≤ tn
    rw [show cfgOne.recovery_timeout = (30 : ℚ) from rfl]
    linarith
  have hnopen : state cfgOne ⟨k, State.OPEN, t⟩ tn ≠ State.OPEN := by
    rw [hho]
    decide
  rw [call_expected_of_not_opened hnopen rfl]
  show call_failed cfgOne ⟨k, State.OPEN, t⟩ tn = ⟨k + 1, State.OPEN, tn⟩
  have hw : wrap32 (k + 1) = k + 1 :=
    wrap32_eq_self (by unfold INT_MIN; omega) hkM
  rcases call_failed_cases cfgOne ⟨k, State.OPEN, t⟩ tn with hcf | hcf
  · rw [hcf.1]
    show Breaker.mk (wrap32 (k + 1)) State.OPEN tn = _
    rw [hw]
  · exfalso
    have h2 : wrap32 (k + 1) < cfgOne.failure_threshold := hcf.2
    rw [hw, show cfgOne.failure_threshold = 1 from rfl] at h2
    omega

theorem runSpaced (k : ℕ) (h1 : 1 ≤ k) (hk : (k : ℤ) ≤ INT_MAX) :
    runTrace cfgOne (initState 0) (spacedTrace k) =
      ⟨(k : ℤ), State.OPEN, 30 * ((k : ℚ) - 1)⟩ := by
  induction k with
  | zero => omega
  | succ k ih =>
    rw [spacedTrace_succ, runTrace_append]
    by_cases hk0 : k = 0
    · subst hk0
      have hno : state cfgOne (runTrace cfgOne (initState 0) (spacedTrace 0))
          (30 * ((0 : ℕ) : ℚ)) ≠ State.OPEN := by
        rw [state_of_stored_CLOSED cfgOne _ _ rfl]
        decide
      show (call cfgOne (runTrace cfgOne (initState 0) (spacedTrace 0))
        (30 * ((0 : ℕ) : ℚ)) (Outcome.excRaise 0)).post = _
      rw [call_expected_of_not_opened hno rfl]
      have hru : runTrace cfgOne (initState 0) (spacedTrace 0) =
          initState 0 := rfl
      rw [hru]
      rcases call_failed_cases cfgOne (initState 0) (30 * ((0 : ℕ) : ℚ)) with
        hcf | hcf
      · rw [hcf.1]
        have hw1 : wrap32 ((initState 0).underscore_failure_count + 1) = 1 := by
          show wrap32 (0 + 1) = 1
          norm_num [wrap32]
        rw [hw1]
        simp [initState]
      · exfalso
        have hw1 : wrap32 ((initState 0).underscore_failure_count + 1) = 1 := by
          show wrap32 (0 + 1) = 1
          norm_num [wrap32]
        rw [hw1] at hcf
        have hth : cfgOne.failure_threshold = 1 := rfl
        rw [hth] at hcf
        omega
    · have hk1 : 1 ≤ k := by omega
      have ihk := ih hk1 (by push_cast at hk ⊢; omega)
      rw [ihk]
      show (call (α := ℕ) cfgOne ⟨(k : ℤ), State.OPEN, 30 * ((k : ℚ) - 1)⟩
        (30 * ((k : ℕ) : ℚ)) (Outcome.excRaise 0)).post = _
      rw [call_spaced_step (k : ℤ) (30 * ((k : ℚ) - 1)) (30 * ((k : ℕ) : ℚ))
        (by push_cast; omega) (by push_cast at hk ⊢; omega)
        (by push_cast; ring_nf; linarith)]
      rw [show ((k + 1 : ℕ) : ℤ) = (k : ℤ) + 1 from by push_cast; ring,
        show 30 * (((k + 1 : ℕ) : ℚ) - 1) = 30 * ((k : ℕ) : ℚ) from by
          push_cast; ring]

theorem call_saturated_step (t tn : ℚ) (hel : t + 30 ≤ tn) :
    (call (α := ℕ) cfgOne ⟨INT_MAX, State.OPEN, t⟩ tn
        (Outcome.excRaise 0)).post =
      ⟨INT_MIN, State.OPEN, t⟩ := by
  have hho : state cfgOne ⟨INT_MAX, State.OPEN, t⟩ tn = State.HALF_OPEN := by
    apply (state_eq_HALF_OPEN_iff cfgOne ⟨INT_MAX, State.OPEN, t⟩ tn
      (show State.OPEN ≠ State.HALF_OPEN by decide)).mpr
    refine ⟨rfl, ?_⟩
    show t + cfgOne.recovery_timeout ≤ tn
    rw [show cfgOne.recovery_timeout = (30 : ℚ) from rfl]
    linarith
  have hnopen : state cfgOne ⟨INT_MAX, State.OPEN, t⟩ tn ≠ State.OPEN := by
    rw [hho]
    decide
  rw [call_expected_of_not_opened hnopen rfl]
  show call_failed cfgOne ⟨INT_MAX, State.OPEN, t⟩ tn = ⟨INT_MIN, State.OPEN, t⟩
  rcases call_failed_cases cfgOne ⟨INT_MAX, State.OPEN, t⟩ tn with hcf | hcf
  · exfalso
    have h2 : cfgOne.failure_threshold ≤ wrap32 (INT_MAX + 1) := hcf.2
    rw [wrap32_INT_MAX_succ, show cfgOne.failure_threshold = 1 from rfl] at h2
    unfold INT_MIN at h2
    omega
  · rw [hcf.1]
    show Breaker.mk (wrap32 (INT_MAX + 1)) State.OPEN t = _
    rw [wrap32_INT_MAX_succ]

theorem runTrace_snoc (cfg : Config ε) (b : Breaker)
    (l : List (ℚ × Outcome α ε)) (t : ℚ) (f : Outcome α ε) :
    runTrace cfg b (l ++ [(t, f)]) =
      (call cfg (runTrace cfg b l) t f).post := by
  rw [runTrace_append]
  rfl

/-- Counterexample to C9 as stated: after `2 ^ 31 - 1` spaced guarded failures
against a threshold-1 breaker the `c_int` counter holds `INT_MAX` with stored
state `OPEN`; the next guarded failure (the call goes through in `HALF_OPEN`)
wraps the counter to `INT_MIN`.  The resulting reachable state has stored
`OPEN` with `failure_count < failure_threshold`, and that failure-transition
decreased the count even though it was not the success-transition. -/
theorem C9_counterexample :
    sPreWrap.underscore_failure_count = INT_MAX
  ∧ sPreWrap.underscore_state = State.OPEN
  ∧ sWrapped = (call (α := ℕ) cfgOne sPreWrap (30 * ((2 ^ 31 - 1 : ℕ) : ℚ))
      (Outcome.excRaise 0)).post
  ∧ sWrapped.underscore_state = State.OPEN
  ∧ sWrapped.underscore_failure_count = INT_MIN
  ∧ sWrapped.underscore_failure_count < cfgOne.failure_threshold
  ∧ sWrapped.underscore_failure_count < sPreWrap.underscore_failure_count := by
  have hdef : sPreWrap =
      runTrace cfgOne (initState 0) (spacedTrace (2 ^ 31 - 1)) := rfl
  have hpre : sPreWrap = ⟨((2 ^ 31 - 1 : ℕ) : ℤ), State.OPEN,
      30 * (((2 ^ 31 - 1 : ℕ) : ℚ) - 1)⟩ :=
    runSpaced (2 ^ 31 - 1) (by norm_num) (by norm_num [INT_MAX])
  have hint : ((2 ^ 31 - 1 : ℕ) : ℤ) = INT_MAX := by norm_num [INT_MAX]
  have hsplit : spacedTrace (2 ^ 31) = spacedTrace (2 ^ 31 - 1) ++
      [((30 * ((2 ^ 31 - 1 : ℕ) : ℚ)), Outcome.excRaise 0)] := by
    conv_lhs => rw [show (2 ^ 31 : ℕ) = (2 ^ 31 - 1) + 1 from by norm_num]
    rw [spacedTrace_succ]
  have h1 : sWrapped = runTrace cfgOne (initState 0)
      (spacedTrace (2 ^ 31 - 1) ++
        [((30 * ((2 ^ 31 - 1 : ℕ) : ℚ)), Outcome.excRaise 0)]) := by
    unfold sWrapped
    rw [hsplit]
  have h2 : runTrace cfgOne (initState 0)
      (spacedTrace (2 ^ 31 - 1) ++
        [((30 * ((2 ^ 31 - 1 : ℕ) : ℚ)), Outcome.excRaise 0)]) =
      (call cfgOne (runTrace cfgOne (initState 0) (spacedTrace (2 ^ 31 - 1)))
        (30 * ((2 ^ 31 - 1 : ℕ) : ℚ)) (Outcome.excRaise 0)).post :=
    runTrace_snoc cfgOne (initState 0) (spacedTrace (2 ^ 31 - 1))
      (30 * ((2 ^ 31 - 1 : ℕ) : ℚ)) (Outcome.excRaise 0)
  have h3 : (call (α := ℕ) cfgOne
        (runTrace cfgOne (initState 0) (spacedTrace (2 ^ 31 - 1)))
        (30 * ((2 ^ 31 - 1 : ℕ) : ℚ)) (Outcome.excRaise 0)).post =
      (call (α := ℕ) cfgOne sPreWrap (30 * ((2 ^ 31 - 1 : ℕ) : ℚ))
        (Outcome.excRaise 0)).post := by
    rw [hdef]
  have hw : sWrapped = (call (α := ℕ) cfgOne sPreWrap
      (30 * ((2 ^ 31 - 1 : ℕ) : ℚ)) (Outcome.excRaise 0)).post :=
    (h1.trans h2).trans h3
  have hstep : (call (α := ℕ) cfgOne sPreWrap (30 * ((2 ^ 31 - 1 : ℕ) : ℚ))
      (Outcome.excRaise 0)).post =
      ⟨INT_MIN, State.OPEN, 30 * (((2 ^ 31 - 1 : ℕ) : ℚ) - 1)⟩ := by
    rw [hpre, hint]
    apply call_saturated_step
    push_cast
    norm_num
  have hw2 : sWrapped =
      ⟨INT_MIN, State.OPEN, 30 * (((2 ^ 31 - 1 : ℕ) : ℚ) - 1)⟩ :=
    hw.trans hstep
  refine ⟨?_, ?_, hw, ?_, ?_, ?_, ?_⟩
  · rw [hpre]
    exact hint
  · rw [hpre]
  · rw [hw2]
  · rw [hw2]
  · rw [hw2]
    show INT_MIN < cfgOne.failure_threshold
    rw [show cfgOne.failure_threshold = 1 from rfl]
    unfold INT_MIN
    omega
  · rw [hw2, hpre]
    show INT_MIN < ((2 ^ 31 - 1 : ℕ) : ℤ)
    rw [hint]
    unfold INT_MIN INT_MAX
    omega

end Circuitbreaker
